import Mathlib

/-!
Shallow embedding of the chore-rotation service in `src/app.py`.

Modelling conventions:
* SQLite rows become Lean structures; a `Store` holds the three tables
  (`members`, `chores`, `assignments`) as lists in insertion order, plus the
  AUTOINCREMENT counters that produce fresh primary keys.
* `week_start` values are ISO calendar dates in the source (TEXT compared with
  `<` and `=`); ISO date strings compare lexicographically exactly as their
  calendar dates compare chronologically, so weeks are modelled as `Int` day
  numbers (days since 1970-01-01, which was a Thursday).  Python's
  `date.weekday()` (Monday = 0) becomes `pyWeekday`.
* SQL `ORDER BY` clauses and Python's stable `list.sort` are modelled with
  Mathlib's stable `List.insertionSort`.
* `created_at` timestamps are opaque strings never read by any logic, so they
  are omitted from the row structures.
* The HTTP handlers `rotate`, `get_current_assignments`, `complete_assignment`
  and `add_member` become functions from a `Store` (plus the request data and
  the server's current date `today`) to a result value and the updated
  `Store`.  Flask's `request.json`/`request.args`/`request.form` fields are
  passed as explicit `Option` arguments.
* An uncaught `sqlite3.IntegrityError` (the UNIQUE constraint firing during
  the INSERT loop of `rotate`) aborts the request before `conn.commit()`, so
  none of that call's inserts persist; the HTTP layer turns the uncaught
  exception into a server error.  This is the `RotateResult.serverError`
  outcome.
-/

/-- Row of the `members` table (`created_at` omitted, never read). -/
structure Member where
  id : Nat
  householdId : Nat
  name : String
  email : Option String
  joinOrder : Nat
deriving DecidableEq

/-- Row of the `chores` table (`created_at` omitted, never read). -/
structure Chore where
  id : Nat
  householdId : Nat
  title : String
  cadence : String
deriving DecidableEq

/-- Row of the `assignments` table (`created_at` omitted, never read).
The schema enforces UNIQUE(household_id, week_start, chore_id). -/
structure Assignment where
  id : Nat
  householdId : Nat
  weekStart : Int
  choreId : Nat
  memberId : Nat
  status : String
  proofUrl : Option String
deriving DecidableEq

/-- The SQLite database: the three tables in row-insertion order together
with the AUTOINCREMENT counters that hand out fresh primary keys. -/
structure Store where
  members : List Member
  chores : List Chore
  assignments : List Assignment
  nextMemberId : Nat
  nextAssignmentId : Nat
deriving DecidableEq

/-- Python's `date.weekday()` (Monday = 0, Sunday = 6) on a day number
counted from 1970-01-01, a Thursday. -/
def pyWeekday (d : Int) : Int :=
  (d + 3) % 7

/-- Source `monday_of_week`: `d - timedelta(days=d.weekday())`. -/
def monday_of_week (d : Int) : Int :=
  d - pyWeekday d

/-- SQL `ORDER BY join_order ASC, id ASC` on member rows. -/
def memberOrdLe (m1 m2 : Member) : Prop :=
  m1.joinOrder < m2.joinOrder ∨ (m1.joinOrder = m2.joinOrder ∧ m1.id ≤ m2.id)

instance : DecidableRel memberOrdLe := fun m1 m2 => by
  unfold memberOrdLe; exact inferInstance

/-- SQL `ORDER BY id ASC` on chore rows. -/
def choreOrdLe (c1 c2 : Chore) : Prop :=
  c1.id ≤ c2.id

instance : DecidableRel choreOrdLe := fun c1 c2 => by
  unfold choreOrdLe; exact inferInstance

/-- SQL `ORDER BY a.id ASC` on assignment rows. -/
def assignOrdLe (a1 a2 : Assignment) : Prop :=
  a1.id ≤ a2.id

instance : DecidableRel assignOrdLe := fun a1 a2 => by
  unfold assignOrdLe; exact inferInstance

/-- Lexicographic order on the `(historical count, join_order, member id)`
triples that `pick_member_round_robin` sorts (Python tuple comparison). -/
def keyLe (x y : Nat × Nat × Nat) : Prop :=
  x.1 < y.1 ∨ (x.1 = y.1 ∧ (x.2.1 < y.2.1 ∨ (x.2.1 = y.2.1 ∧ x.2.2 ≤ y.2.2)))

instance : DecidableRel keyLe := fun x y => by
  unfold keyLe; exact inferInstance

instance : IsTotal (Nat × Nat × Nat) keyLe := by
  constructor
  intro a b
  obtain ⟨a1, a2, a3⟩ := a
  obtain ⟨b1, b2, b3⟩ := b
  unfold keyLe
  dsimp only
  omega

instance : IsTrans (Nat × Nat × Nat) keyLe := by
  constructor
  intro a b c h1 h2
  obtain ⟨a1, a2, a3⟩ := a
  obtain ⟨b1, b2, b3⟩ := b
  obtain ⟨c1, c2, c3⟩ := c
  unfold keyLe at h1 h2 ⊢
  dsimp only at h1 h2 ⊢
  omega

instance : IsAntisymm (Nat × Nat × Nat) keyLe := by
  constructor
  intro a b h1 h2
  obtain ⟨a1, a2, a3⟩ := a
  obtain ⟨b1, b2, b3⟩ := b
  unfold keyLe at h1 h2
  dsimp only at h1 h2
  simp only [Prod.mk.injEq]
  omega

/-- Count of rows the SQL
`SELECT member_id, COUNT(*) FROM assignments WHERE household_id=? AND
week_start < ? GROUP BY member_id` attributes to member `mid`
(0 when the GROUP BY produces no row for `mid`, matching `hist.get(m["id"], 0)`). -/
def histCount (st : Store) (hid : Nat) (week : Int) (mid : Nat) : Nat :=
  (st.assignments.filter (fun a =>
    a.householdId == hid && decide (a.weekStart < week) && a.memberId == mid)).length

/-- Source `pick_member_round_robin`: fetch the household's members ordered by
`(join_order, id)`, score each as `(historical count, join_order, id)`, sort
the scores ascending and return the member ids in that order. -/
def pick_member_round_robin (st : Store) (hid : Nat) (week : Int) : List Nat :=
  let members := List.insertionSort memberOrdLe
    (st.members.filter (fun m => m.householdId == hid))
  if members.isEmpty then []
  else
    let scored := members.map (fun m => (histCount st hid week m.id, m.joinOrder, m.id))
    (List.insertionSort keyLe scored).map (fun x => x.2.2)

/-- Row of the read-side join produced by `get_current_assignments`
(`SELECT a.*, c.title AS chore_title, m.name AS member_name ...`). -/
structure AssignmentView where
  id : Nat
  householdId : Nat
  weekStart : Int
  choreId : Nat
  memberId : Nat
  status : String
  proofUrl : Option String
  choreTitle : String
  memberName : String
deriving DecidableEq

/-- Join one assignment row with a matching chore row and member row. -/
def assignmentView (a : Assignment) (c : Chore) (m : Member) : AssignmentView :=
  ⟨a.id, a.householdId, a.weekStart, a.choreId, a.memberId, a.status, a.proofUrl,
    c.title, m.name⟩

/-- Source `get_current_assignments` handler: the week defaults to the current
Monday when the `week_start` query argument is absent; the result is the SQL
inner join of the week's assignment rows (ordered by id) with `chores` on
`c.id = a.chore_id` and `members` on `m.id = a.member_id`. -/
def get_current_assignments (st : Store) (hid : Nat) (argsWeek : Option Int)
    (today : Int) : Int × List AssignmentView :=
  let week := argsWeek.getD (monday_of_week today)
  let rows := List.insertionSort assignOrdLe
    (st.assignments.filter (fun a => a.householdId == hid && a.weekStart == week))
  (week, rows.flatMap (fun a =>
    (st.chores.filter (fun c => c.id == a.choreId)).flatMap (fun c =>
      (st.members.filter (fun m => m.id == a.memberId)).map (fun m =>
        assignmentView a c m))))

/-- Outcome of the `rotate` handler: a 200 body `{week_start, assignments}`,
a 400 error body, or the uncaught-IntegrityError outcome (HTTP 500). -/
inductive RotateResult where
  | ok (weekStart : Int) (assignments : List AssignmentView)
  | badRequest (msg : String)
  | serverError
deriving DecidableEq

/-- One `INSERT INTO assignments ...` inside `rotate`'s loop: `none` models
the UNIQUE(household_id, week_start, chore_id) constraint rejecting the row
(sqlite3.IntegrityError); otherwise the row is appended with a fresh id. -/
def insertAssignment (st : Store) (hid : Nat) (week : Int) (choreId memberId : Nat) :
    Option Store :=
  if st.assignments.any (fun a =>
      a.householdId == hid && a.weekStart == week && a.choreId == choreId) then
    none
  else
    some { st with
      assignments := st.assignments ++
        [⟨st.nextAssignmentId, hid, week, choreId, memberId, "assigned", none⟩],
      nextAssignmentId := st.nextAssignmentId + 1 }

/-- The `for chore_id in chores` loop of `rotate`: chore number `i` (the
running counter of the source) is assigned to `order[i % len(order)]`; `none`
propagates the first rejected insert (the exception aborts the loop). -/
def insertLoop (hid : Nat) (week : Int) (order : List Nat) :
    Store → List Nat → Nat → Option Store
  | st, [], _ => some st
  | st, c :: cs, i =>
    match insertAssignment st hid week c (order.getD (i % order.length) 0) with
    | none => none
    | some st1 => insertLoop hid week order st1 cs (i + 1)

/-- The chore ids `rotate` fetches:
`SELECT id FROM chores WHERE household_id=? ORDER BY id ASC`. -/
def choreIdsOf (st : Store) (hid : Nat) : List Nat :=
  (List.insertionSort choreOrdLe
    (st.chores.filter (fun c => c.householdId == hid))).map (fun c => c.id)

/-- Body of the `rotate` handler, with the race point of §5 made explicit:
`stC` is the store this call's own connection reads (the idempotency COUNT,
the chore/member fetches and the history counts), while `stI` is the store
its INSERTs hit and the store a fresh connection sees afterwards.  A call
with no concurrent writer has `stC = stI` (see `rotate`); a concurrent
`rotate` that commits between this call's reads and its inserts makes
`stI` an extension of `stC`.  On an uncaught constraint violation nothing of
this call commits, so the store stays `stI`. -/
def rotateCore (stC stI : Store) (hid : Nat) (bodyWeek argsWeek : Option Int)
    (today : Int) : RotateResult × Store :=
  let week := bodyWeek.getD (monday_of_week today)
  if (stC.assignments.filter (fun a =>
      a.householdId == hid && a.weekStart == week)).length > 0 then
    let cur := get_current_assignments stI hid argsWeek today
    (.ok cur.1 cur.2, stI)
  else
    let chores := choreIdsOf stC hid
    let memberCount := (stC.members.filter (fun m => m.householdId == hid)).length
    if chores.isEmpty || memberCount == 0 then
      (.badRequest "Need at least 1 chore and 1 member", stI)
    else
      let order := pick_member_round_robin stC hid week
      if order.isEmpty then
        (.badRequest "No members", stI)
      else
        match insertLoop hid week order stI chores 0 with
        | none => (.serverError, stI)
        | some st1 =>
          let cur := get_current_assignments st1 hid argsWeek today
          (.ok cur.1 cur.2, st1)

/-- Source `rotate` handler (sequential execution: one store throughout).
`bodyWeek` is `request.json["week_start"]`, `argsWeek` is the `week_start`
query argument the nested `get_current_assignments(hid)` call reads, and
`today` is the server's current local date. -/
def rotate (st : Store) (hid : Nat) (bodyWeek argsWeek : Option Int)
    (today : Int) : RotateResult × Store :=
  rotateCore st st hid bodyWeek argsWeek today

/-- Outcome of the `complete_assignment` handler. -/
inductive CompleteResult where
  | ok (id : Nat) (status : String) (proofUrl : Option String)
  | notFound
deriving DecidableEq

/-- Source `complete_assignment` handler: run the UPDATE, and if its rowcount
is 0 close the connection without committing (so the store is unchanged) and
answer 404; otherwise commit and answer with the id, status and proof url. -/
def complete_assignment (st : Store) (aid : Nat) (purl : Option String) :
    CompleteResult × Store :=
  let updated := st.assignments.map (fun a =>
    if a.id == aid then { a with status := "done", proofUrl := purl } else a)
  let rowcount := (st.assignments.filter (fun a => a.id == aid)).length
  if rowcount == 0 then (.notFound, st)
  else (.ok aid "done" purl, { st with assignments := updated })

/-- Source `add_member` handler: the new row's `join_order` is
`COALESCE(MAX(join_order), 0) + 1` over the household's current members. -/
def add_member (st : Store) (hid : Nat) (name : String) (email : Option String) :
    Member × Store :=
  let join_order :=
    ((st.members.filter (fun m => m.householdId == hid)).map
      (fun m => m.joinOrder)).foldl max 0 + 1
  let m : Member := ⟨st.nextMemberId, hid, name, email, join_order⟩
  (m, { st with members := st.members ++ [m], nextMemberId := st.nextMemberId + 1 })

/-- The `(historical count, joinOrder, identity)` score of a member, the sort
key named by spec §4.1. -/
def memberKey (st : Store) (hid : Nat) (week : Int) (m : Member) : Nat × Nat × Nat :=
  (histCount st hid week m.id, m.joinOrder, m.id)

/-- Comparison of members by their §4.1 sort key. -/
def memberKeyLe (st : Store) (hid : Nat) (week : Int) (m1 m2 : Member) : Prop :=
  keyLe (memberKey st hid week m1) (memberKey st hid week m2)

instance (st : Store) (hid : Nat) (week : Int) :
    DecidableRel (memberKeyLe st hid week) := fun m1 m2 => by
  unfold memberKeyLe; exact inferInstance

/-- Spec §4.1, modelled from the spec's words for the refinement claim about
the fairness ranker: "members ordered ascending by
(historical count, joinOrder, identity)", on the household's (unsorted)
member list. -/
def fairnessRankSpec (st : Store) (hid : Nat) (week : Int) : List Nat :=
  (List.insertionSort (memberKeyLe st hid week)
    (st.members.filter (fun m => m.householdId == hid))).map (fun m => m.id)

/-- Concrete database for the worked spec examples: household 1 with four
members (joinOrders 1..4), five chores, and a history giving the members the
past-assignment counts `[3, 1, 1, 2]` relative to week 19884 (2024-06-10).
Day numbers: 19870 = 2024-05-27, 19877 = 2024-06-03, 19884 = 2024-06-10,
all Mondays; 19886 = 2024-06-12, a Wednesday. -/
def exC34 : Store :=
  { members :=
      [⟨1, 1, "M1", none, 1⟩, ⟨2, 1, "M2", none, 2⟩,
       ⟨3, 1, "M3", none, 3⟩, ⟨4, 1, "M4", none, 4⟩],
    chores :=
      [⟨1, 1, "T1", "weekly"⟩, ⟨2, 1, "T2", "weekly"⟩, ⟨3, 1, "T3", "weekly"⟩,
       ⟨4, 1, "T4", "weekly"⟩, ⟨5, 1, "T5", "weekly"⟩],
    assignments :=
      [⟨1, 1, 19877, 1, 1, "done", none⟩, ⟨2, 1, 19877, 2, 1, "assigned", none⟩,
       ⟨3, 1, 19877, 3, 1, "assigned", none⟩, ⟨4, 1, 19877, 4, 2, "assigned", none⟩,
       ⟨5, 1, 19877, 5, 3, "assigned", none⟩, ⟨6, 1, 19870, 1, 4, "assigned", none⟩,
       ⟨7, 1, 19870, 2, 4, "assigned", none⟩],
    nextMemberId := 5, nextAssignmentId := 8 }

/-- Concrete database for the idempotent-replay path of `rotate`: household 1
already has its single assignment for week 19877 (2024-06-03). -/
def exC1 : Store :=
  { members := [⟨1, 1, "Ana", none, 1⟩],
    chores := [⟨1, 1, "Dishes", "weekly"⟩],
    assignments := [⟨1, 1, 19877, 1, 1, "assigned", none⟩],
    nextMemberId := 2, nextAssignmentId := 2 }

/-- Store a `rotate` call's own connection read before its inserts: household
1 with one member, one chore and no assignments for week 19884. -/
def cex2C : Store :=
  { members := [⟨1, 1, "Ana", none, 1⟩],
    chores := [⟨1, 1, "Dishes", "weekly"⟩],
    assignments := [],
    nextMemberId := 2, nextAssignmentId := 1 }

/-- The committed store after a concurrent `rotate` for the same household
and week 19884 won the race: its row makes the UNIQUE constraint fire. -/
def cex2I : Store :=
  { cex2C with
    assignments := [⟨1, 1, 19884, 1, 1, "assigned", none⟩],
    nextAssignmentId := 2 }

/-- Household 1 with a member but no chores, and household 2 empty. -/
def exC6 : Store :=
  { members := [⟨1, 1, "Ana", none, 1⟩],
    chores := [],
    assignments := [],
    nextMemberId := 2, nextAssignmentId := 1 }

example : monday_of_week 19886 = 19884 := by decide

example : pyWeekday 19884 = 0 := by decide

example : pick_member_round_robin exC34 1 19884 = [2, 3, 4, 1] := by decide

example : choreIdsOf exC34 1 = [1, 2, 3, 4, 5] := by decide

example : (rotate exC34 1 (some 19884) none 19886).2.assignments =
    exC34.assignments ++
      [⟨8, 1, 19884, 1, 2, "assigned", none⟩, ⟨9, 1, 19884, 2, 3, "assigned", none⟩,
       ⟨10, 1, 19884, 3, 4, "assigned", none⟩, ⟨11, 1, 19884, 4, 1, "assigned", none⟩,
       ⟨12, 1, 19884, 5, 2, "assigned", none⟩] := by decide

example : rotate exC1 1 (some 19877) none 19886 = (.ok 19884 [], exC1) := by decide

example : (get_current_assignments exC1 1 (some 19877) 19886).2 =
    [⟨1, 1, 19877, 1, 1, "assigned", none, "Dishes", "Ana"⟩] := by decide

example : rotateCore cex2C cex2I 1 (some 19884) none 19886 = (.serverError, cex2I) := by
  decide

example : rotate exC6 1 (some 19884) none 19886 =
    (.badRequest "Need at least 1 chore and 1 member", exC6) := by decide

example : complete_assignment exC1 1 (some "u") =
    (.ok 1 "done" (some "u"),
     { exC1 with assignments := [⟨1, 1, 19877, 1, 1, "done", some "u"⟩] }) := by decide

example : complete_assignment exC1 99 none = (.notFound, exC1) := by decide

example : (add_member exC34 1 "Eve" none).1.joinOrder = 5 := by decide

example : (add_member exC34 2 "Eve" none).1.joinOrder = 1 := by decide

theorem le_foldl_max_init (l : List Nat) (a : Nat) : a ≤ l.foldl max a := by
  induction l generalizing a with
  | nil => exact Nat.le_refl a
  | cons b bs ih => exact le_trans (Nat.le_max_left a b) (ih (max a b))

theorem le_foldl_max (l : List Nat) (a : Nat) : ∀ x ∈ l, x ≤ l.foldl max a := by
  induction l generalizing a with
  | nil => intro x hx; cases hx
  | cons b bs ih =>
    intro x hx
    rcases List.mem_cons.mp hx with hx | hx
    · subst hx
      exact le_trans (Nat.le_max_right a x) (le_foldl_max_init bs (max a x))
    · exact ih (max a b) x hx

theorem foldl_max_eq_or_mem (l : List Nat) (a : Nat) :
    l.foldl max a = a ∨ l.foldl max a ∈ l := by
  induction l generalizing a with
  | nil => exact Or.inl rfl
  | cons b bs ih =>
    rcases ih (max a b) with h | h
    · have : max a b = a ∨ max a b = b := by omega
      rcases this with h2 | h2
      · exact Or.inl (by rw [List.foldl_cons, h, h2])
      · exact Or.inr (by rw [List.foldl_cons, h, h2]; exact List.mem_cons_self b bs)
    · exact Or.inr (List.mem_cons_of_mem b h)

theorem foldl_max_zero_mem (l : List Nat) (h : l ≠ []) : l.foldl max 0 ∈ l := by
  rcases foldl_max_eq_or_mem l 0 with h0 | h0
  · rcases l with _ | ⟨x, xs⟩
    · exact absurd rfl h
    · have hx : x ≤ (x :: xs).foldl max 0 := le_foldl_max _ 0 x (List.mem_cons_self x xs)
      rw [h0] at hx
      have : x = 0 := Nat.le_zero.mp hx
      rw [h0, ← this]
      exact List.mem_cons_self x xs
  · exact h0

theorem sorted_members_ne_nil (st : Store) (hid : Nat)
    (h : st.members.filter (fun m => m.householdId == hid) ≠ []) :
    List.insertionSort memberOrdLe
      (st.members.filter (fun m => m.householdId == hid)) ≠ [] := by
  intro h0
  have hlen := List.length_insertionSort memberOrdLe
    (st.members.filter (fun m => m.householdId == hid))
  rw [h0] at hlen
  exact h (List.length_eq_zero.mp hlen.symm)

theorem pick_ne_nil (st : Store) (hid : Nat) (week : Int)
    (h : st.members.filter (fun m => m.householdId == hid) ≠ []) :
    pick_member_round_robin st hid week ≠ [] := by
  have hS := sorted_members_ne_nil st hid h
  unfold pick_member_round_robin
  rw [if_neg (fun hc => hS (List.isEmpty_iff.mp hc))]
  intro hcontra
  have hlen := congrArg List.length hcontra
  simp only [List.length_map, List.length_insertionSort, List.length_nil] at hlen
  exact h (List.length_eq_zero.mp hlen)

theorem histCount_append_of_ge (st : Store) (hid : Nat) (week : Int)
    (a : Assignment) (h : week ≤ a.weekStart) (mid : Nat) :
    histCount { st with assignments := st.assignments ++ [a] } hid week mid
      = histCount st hid week mid := by
  unfold histCount
  simp only [List.filter_append, List.length_append]
  have hdec : decide (a.weekStart < week) = false := by
    simp only [decide_eq_false_iff_not]
    omega
  simp [List.filter, hdec]

/-- C1 (code_bug evidence): household 1 already holds its (single) assignment
for the requested week 19877 = 2024-06-03, yet `rotate` called with body
`week_start = 19877` on 19886 = 2024-06-12 responds with week
19884 = 2024-06-10 (the current Monday, because the nested
`get_current_assignments(hid)` call reads `week_start` from `request.args`,
which the rotate body does not populate) and an empty assignment list — not
the existing 2024-06-03 set, which is nonempty.  The store itself is left
unchanged. -/
theorem rotate_replay_responds_with_default_week :
    (exC1.assignments.filter (fun a =>
        a.householdId == 1 && a.weekStart == (19877 : Int))).length = 1
    ∧ rotate exC1 1 (some 19877) none 19886 = (.ok 19884 [], exC1)
    ∧ (get_current_assignments exC1 1 (some 19877) 19886).2
        = [⟨1, 1, 19877, 1, 1, "assigned", none, "Dishes", "Ana"⟩] := by
  refine ⟨by decide, by decide, by decide⟩

/-- C2 (counterexample): a `rotate` call whose idempotency check ran against
`cex2C` (no rows for week 19884) while a concurrent winner had already
committed the week's row (`cex2I`) hits the UNIQUE constraint on its INSERT
and surfaces a server error to the caller — the uniqueness violation is not
recovered by read-back as the claim states. -/
theorem rotate_conflict_error_surfaced_cex :
    rotateCore cex2C cex2I 1 (some 19884) none 19886
      = (RotateResult.serverError, cex2I) := by decide

/-- C2 (amended): whenever the idempotency check of `rotate` passes but an
INSERT of the loop is rejected by the UNIQUE(household, week, chore)
constraint, the engine does not catch the conflict: the request fails with a
server error rather than answering with the now-existing assignment set, and
none of this call's inserts persist. -/
theorem rotate_conflict_error_surfaced (stC stI : Store) (hid : Nat)
    (bw aw : Option Int) (today : Int)
    (hfresh : (stC.assignments.filter (fun a =>
        a.householdId == hid && a.weekStart == bw.getD (monday_of_week today))).length = 0)
    (hch : choreIdsOf stC hid ≠ [])
    (hmem : stC.members.filter (fun m => m.householdId == hid) ≠ [])
    (hconf : insertLoop hid (bw.getD (monday_of_week today))
        (pick_member_round_robin stC hid (bw.getD (monday_of_week today)))
        stI (choreIdsOf stC hid) 0 = none) :
    rotateCore stC stI hid bw aw today = (RotateResult.serverError, stI) := by
  have hch2 : (choreIdsOf stC hid).isEmpty = false :=
    List.isEmpty_eq_false.mpr hch
  have hmem2 : ((stC.members.filter (fun m => m.householdId == hid)).length == 0)
      = false := by
    simp only [beq_eq_false_iff_ne, ne_eq]
    intro h0
    exact hmem (List.length_eq_zero.mp h0)
  have hord2 : (pick_member_round_robin stC hid
      (bw.getD (monday_of_week today))).isEmpty = false :=
    List.isEmpty_eq_false.mpr
      (pick_ne_nil stC hid (bw.getD (monday_of_week today)) hmem)
  simp only [rotateCore, hfresh, gt_iff_lt, Nat.lt_irrefl, if_false, hch2, hmem2,
    Bool.or_self, Bool.false_eq_true, hord2, hconf]

/-- C2 (witness for the amended theorem). -/
theorem rotate_conflict_error_surfaced_witness :
    rotateCore cex2C cex2I 1 (some 19884) (some 19877) 19886
      = (RotateResult.serverError, cex2I) :=
  rotate_conflict_error_surfaced cex2C cex2I 1 (some 19884) (some 19877) 19886
    (by decide) (by decide) (by decide) (by decide)

theorem insertLoop_ok (hid : Nat) (week : Int) (order : List Nat) (cs : List Nat) :
    ∀ (st : Store) (i : Nat),
    (∀ c ∈ cs, ∀ a ∈ st.assignments,
        ¬(a.householdId = hid ∧ a.weekStart = week ∧ a.choreId = c)) →
    cs.Nodup →
    insertLoop hid week order st cs i = some
      { st with
        assignments := st.assignments ++ (List.range cs.length).map (fun j =>
          ⟨st.nextAssignmentId + j, hid, week, cs.getD j 0,
            order.getD ((i + j) % order.length) 0, "assigned", none⟩),
        nextAssignmentId := st.nextAssignmentId + cs.length } := by
  induction cs with
  | nil =>
    intro st i _ _
    simp [insertLoop]
  | cons c cs ih =>
    intro st i hclean hnodup
    have hins : insertAssignment st hid week c (order.getD (i % order.length) 0)
        = some { st with
            assignments := st.assignments ++
              [⟨st.nextAssignmentId, hid, week, c,
                order.getD (i % order.length) 0, "assigned", none⟩],
            nextAssignmentId := st.nextAssignmentId + 1 } := by
      unfold insertAssignment
      rw [if_neg]
      intro hany
      rw [List.any_eq_true] at hany
      obtain ⟨a, ha, hpa⟩ := hany
      rw [Bool.and_eq_true, Bool.and_eq_true] at hpa
      exact hclean c (List.mem_cons_self c cs) a ha
        ⟨by simpa using hpa.1.1, by simpa using hpa.1.2, by simpa using hpa.2⟩
    have hclean1 : ∀ c2 ∈ cs, ∀ a ∈ (st.assignments ++
        [(⟨st.nextAssignmentId, hid, week, c,
          order.getD (i % order.length) 0, "assigned", none⟩ : Assignment)]),
        ¬(a.householdId = hid ∧ a.weekStart = week ∧ a.choreId = c2) := by
      intro c2 hc2 a ha
      rcases List.mem_append.mp ha with ha | ha
      · exact hclean c2 (List.mem_cons_of_mem c hc2) a ha
      · rw [List.mem_singleton] at ha
        subst ha
        rintro ⟨-, -, hcc⟩
        exact (List.nodup_cons.mp hnodup).1 (by rw [← hcc] at hc2; exact hc2)
    have hrec := ih { st with
        assignments := st.assignments ++
          [⟨st.nextAssignmentId, hid, week, c,
            order.getD (i % order.length) 0, "assigned", none⟩],
        nextAssignmentId := st.nextAssignmentId + 1 }
      (i + 1) hclean1 (List.nodup_cons.mp hnodup).2
    simp only [insertLoop, hins, hrec]
    congr 1
    simp only [Store.mk.injEq, and_true, true_and]
    constructor
    · simp only [List.length_cons, List.range_succ_eq_map, List.map_cons,
        List.map_map, List.append_assoc, List.singleton_append,
        List.getD_cons_zero, Nat.add_zero]
      congr 1
      congr 1
      apply List.map_congr_left
      intro j hj
      simp only [Function.comp_apply, Nat.succ_eq_add_one, List.getD_cons_succ]
      have h1 : st.nextAssignmentId + 1 + j = st.nextAssignmentId + (j + 1) := by
        omega
      have h2 : i + 1 + j = i + (j + 1) := by omega
      rw [h1, h2]
    · simp only [List.length_cons]
      omega

/-- C4: on a week with no existing assignments, `rotate` walks the
household's chores in ascending id (creation) order and persists, for the
chore at 0-indexed position j, one `assigned` row binding it to the
fair-order member at position `j mod len(order)`, with consecutive fresh
row ids — exactly the cyclic assignment the spec describes. -/
theorem rotate_assigns_chores_cyclically (st : Store) (hid : Nat)
    (bw aw : Option Int) (today : Int)
    (hfresh : (st.assignments.filter (fun a =>
        a.householdId == hid && a.weekStart == bw.getD (monday_of_week today))).length = 0)
    (hnodup : ((st.chores.filter (fun c => c.householdId == hid)).map
        (fun c => c.id)).Nodup)
    (hch : choreIdsOf st hid ≠ [])
    (hord : pick_member_round_robin st hid (bw.getD (monday_of_week today)) ≠ []) :
    (rotate st hid bw aw today).2.assignments =
      st.assignments ++ (List.range (choreIdsOf st hid).length).map (fun j =>
        ⟨st.nextAssignmentId + j, hid, bw.getD (monday_of_week today),
          (choreIdsOf st hid).getD j 0,
          (pick_member_round_robin st hid (bw.getD (monday_of_week today))).getD
            (j % (pick_member_round_robin st hid
              (bw.getD (monday_of_week today))).length) 0,
          "assigned", none⟩) := by
  have hch2 : (choreIdsOf st hid).isEmpty = false := List.isEmpty_eq_false.mpr hch
  have hmem : st.members.filter (fun m => m.householdId == hid) ≠ [] := by
    intro h0
    apply hord
    unfold pick_member_round_robin
    rw [h0]
    rfl
  have hmem2 : ((st.members.filter (fun m => m.householdId == hid)).length == 0)
      = false := by
    simp only [beq_eq_false_iff_ne, ne_eq]
    intro h0
    exact hmem (List.length_eq_zero.mp h0)
  have hord2 : (pick_member_round_robin st hid
      (bw.getD (monday_of_week today))).isEmpty = false :=
    List.isEmpty_eq_false.mpr hord
  have hcleanAll : ∀ c ∈ choreIdsOf st hid, ∀ a ∈ st.assignments,
      ¬(a.householdId = hid ∧ a.weekStart = bw.getD (monday_of_week today) ∧
        a.choreId = c) := by
    intro c _ a ha hconj
    have hfil := List.filter_eq_nil_iff.mp (List.length_eq_zero.mp hfresh) a ha
    apply hfil
    rw [Bool.and_eq_true]
    exact ⟨by simpa using hconj.1, by simpa using hconj.2.1⟩
  have hnodupSorted : (choreIdsOf st hid).Nodup := by
    have hperm : (choreIdsOf st hid).Perm
        ((st.chores.filter (fun c => c.householdId == hid)).map (fun c => c.id)) := by
      unfold choreIdsOf
      exact (List.perm_insertionSort choreOrdLe _).map (fun c => c.id)
    exact hperm.nodup_iff.mpr hnodup
  have hloop := insertLoop_ok hid (bw.getD (monday_of_week today))
    (pick_member_round_robin st hid (bw.getD (monday_of_week today)))
    (choreIdsOf st hid) st 0 hcleanAll hnodupSorted
  simp only [rotate, rotateCore, hfresh, gt_iff_lt, Nat.lt_irrefl, if_false,
    hch2, hmem2, Bool.or_self, Bool.false_eq_true, hord2, hloop]
  simp only [Nat.zero_add]

/-- C4 (witness): on `exC34` (five chores, fair order [2,3,4,1]) the rows
created for week 19884 are C1→M2, C2→M3, C3→M4, C4→M1, C5→M2. -/
theorem rotate_assigns_chores_cyclically_witness :
    (rotate exC34 1 (some 19884) none 19886).2.assignments =
      exC34.assignments ++ (List.range (choreIdsOf exC34 1).length).map (fun j =>
        ⟨exC34.nextAssignmentId + j, 1, (some (19884 : Int)).getD (monday_of_week 19886),
          (choreIdsOf exC34 1).getD j 0,
          (pick_member_round_robin exC34 1
              ((some (19884 : Int)).getD (monday_of_week 19886))).getD
            (j % (pick_member_round_robin exC34 1
              ((some (19884 : Int)).getD (monday_of_week 19886))).length) 0,
          "assigned", none⟩) :=
  rotate_assigns_chores_cyclically exC34 1 (some 19884) none 19886
    (by decide) (by decide) (by decide) (by decide)

/-- C5: the fairness ranker counts only assignments strictly before the
target week — appending any assignment whose `weekStart` is the target week
or later leaves the ranking unchanged — and a member with no assignment rows
has historical count 0. -/
theorem fairness_counts_strictly_before :
    (∀ (st : Store) (hid : Nat) (week : Int) (a : Assignment),
        week ≤ a.weekStart →
        pick_member_round_robin { st with assignments := st.assignments ++ [a] }
            hid week
          = pick_member_round_robin st hid week)
    ∧ (∀ (st : Store) (hid : Nat) (week : Int) (mid : Nat),
        (∀ a ∈ st.assignments, a.memberId ≠ mid) →
        histCount st hid week mid = 0) := by
  constructor
  · intro st hid week a h
    have hcount : ∀ m : Member,
        histCount { st with assignments := st.assignments ++ [a] } hid week m.id
          = histCount st hid week m.id :=
      fun m => histCount_append_of_ge st hid week a h m.id
    unfold pick_member_round_robin
    simp only [hcount]
  · intro st hid week mid hno
    unfold histCount
    rw [List.length_eq_zero, List.filter_eq_nil_iff]
    intro a ha hc
    rw [Bool.and_eq_true, Bool.and_eq_true] at hc
    exact hno a ha (by simpa using hc.2)

/-- C5 (witness): a same-week assignment row does not perturb the ranking of
`exC34`, and a member id with no rows at all has count 0. -/
theorem fairness_counts_strictly_before_witness :
    pick_member_round_robin
        { exC34 with assignments :=
            exC34.assignments ++ [⟨8, 1, 19884, 3, 2, "assigned", none⟩] } 1 19884
      = pick_member_round_robin exC34 1 19884
    ∧ histCount exC34 1 19884 9 = 0 :=
  ⟨fairness_counts_strictly_before.1 exC34 1 19884
      ⟨8, 1, 19884, 3, 2, "assigned", none⟩ (by decide),
   fairness_counts_strictly_before.2 exC34 1 19884 9 (by decide)⟩

/-- C6: when a household has no chores or no members and the week has no
assignments yet, `rotate` answers with the 400 `InsufficientResources` error
and leaves the store untouched — no partial assignment set is created. -/
theorem rotate_insufficient_resources (st : Store) (hid : Nat)
    (bw aw : Option Int) (today : Int)
    (hfresh : (st.assignments.filter (fun a =>
        a.householdId == hid && a.weekStart == bw.getD (monday_of_week today))).length = 0)
    (hempty : st.chores.filter (fun c => c.householdId == hid) = []
        ∨ st.members.filter (fun m => m.householdId == hid) = []) :
    rotate st hid bw aw today
      = (RotateResult.badRequest "Need at least 1 chore and 1 member", st) := by
  have hcond : ((choreIdsOf st hid).isEmpty
      || ((st.members.filter (fun m => m.householdId == hid)).length == 0)) = true := by
    rcases hempty with h | h
    · have h1 : (choreIdsOf st hid).isEmpty = true := by simp [choreIdsOf, h]
      simp [h1]
    · have h1 : ((st.members.filter (fun m => m.householdId == hid)).length == 0)
          = true := by rw [h]; rfl
      simp [h1]
  simp only [rotate, rotateCore, hfresh, gt_iff_lt, Nat.lt_irrefl, if_false, hcond,
    if_true]

/-- C6 (witness): household 1 of `exC6` has a member but no chores. -/
theorem rotate_insufficient_resources_witness :
    rotate exC6 1 (some 19884) none 19886
      = (RotateResult.badRequest "Need at least 1 chore and 1 member", exC6) :=
  rotate_insufficient_resources exC6 1 (some 19884) none 19886 (by decide)
    (Or.inl (by decide))

/-- C7: completing an existing assignment id sets its status to `done`,
stores the supplied proof reference (or none), leaves every other row
byte-identical and answers with the updated data; completing a nonexistent
id answers `NotFound` and leaves the store unchanged. -/
theorem complete_assignment_lifecycle :
    (∀ (st : Store) (aid : Nat) (purl : Option String),
        (∃ a ∈ st.assignments, a.id = aid) →
        complete_assignment st aid purl =
          (CompleteResult.ok aid "done" purl,
           { st with assignments := st.assignments.map (fun a =>
               if a.id == aid then { a with status := "done", proofUrl := purl }
               else a) }))
    ∧ (∀ (st : Store) (aid : Nat) (purl : Option String),
        (∀ a ∈ st.assignments, a.id ≠ aid) →
        complete_assignment st aid purl = (CompleteResult.notFound, st)) := by
  constructor
  · rintro st aid purl ⟨a, ha, hid⟩
    have hmem : a ∈ st.assignments.filter (fun x => x.id == aid) :=
      List.mem_filter.mpr ⟨ha, by simp [hid]⟩
    have hbeq : ((st.assignments.filter (fun x => x.id == aid)).length == 0)
        = false := by
      simp only [beq_eq_false_iff_ne, ne_eq]
      intro h0
      rw [List.length_eq_zero] at h0
      rw [h0] at hmem
      cases hmem
    simp only [complete_assignment, hbeq, Bool.false_eq_true, if_false]
  · intro st aid purl hno
    have h0 : st.assignments.filter (fun x => x.id == aid) = [] := by
      rw [List.filter_eq_nil_iff]
      intro a ha
      simp only [beq_iff_eq]
      exact hno a ha
    simp only [complete_assignment, h0, List.length_nil]
    rfl

/-- C7 (witness): completing assignment 1 of `exC1` with a proof url, and
completing the nonexistent id 99. -/
theorem complete_assignment_lifecycle_witness :
    complete_assignment exC1 1 (some "u")
      = (CompleteResult.ok 1 "done" (some "u"),
         { exC1 with assignments := exC1.assignments.map (fun a =>
             if a.id == 1 then { a with status := "done", proofUrl := some "u" }
             else a) })
    ∧ complete_assignment exC1 99 none = (CompleteResult.notFound, exC1) :=
  ⟨complete_assignment_lifecycle.1 exC1 1 (some "u")
      ⟨⟨1, 1, 19877, 1, 1, "assigned", none⟩, by decide, rfl⟩,
   complete_assignment_lifecycle.2 exC1 99 none (by decide)⟩

/-- C8: the member created by `add_member` receives a `joinOrder` strictly
greater than every existing `joinOrder` of the household (so joinOrders are
strictly increasing in creation order and never reused), equal to 1 for the
household's first member, and equal to some existing member's
`joinOrder + 1` otherwise — together: `max(joinOrder in household) + 1`. -/
theorem add_member_join_order (st : Store) (hid : Nat) (name : String)
    (email : Option String) :
    ((st.members.filter (fun m => m.householdId == hid)).all
        (fun m => decide (m.joinOrder < (add_member st hid name email).1.joinOrder))
      = true)
    ∧ ((st.members.filter (fun m => m.householdId == hid)).isEmpty = true →
        (add_member st hid name email).1.joinOrder = 1)
    ∧ ((st.members.filter (fun m => m.householdId == hid)).isEmpty = false →
        ((st.members.filter (fun m => m.householdId == hid)).any
          (fun m => (add_member st hid name email).1.joinOrder == m.joinOrder + 1))
          = true) := by
  refine ⟨?_, ?_, ?_⟩
  · rw [List.all_eq_true]
    intro m hm
    have hle : m.joinOrder ≤ ((st.members.filter (fun x => x.householdId == hid)).map
        (fun x => x.joinOrder)).foldl max 0 :=
      le_foldl_max _ 0 _ (List.mem_map_of_mem _ hm)
    simp only [add_member, decide_eq_true_eq]
    omega
  · intro hE
    rw [List.isEmpty_iff] at hE
    simp [add_member, hE]
  · intro hE
    rw [List.isEmpty_eq_false] at hE
    have hmap : (st.members.filter (fun m => m.householdId == hid)).map
        (fun m => m.joinOrder) ≠ [] := by
      intro h0
      exact hE (List.map_eq_nil_iff.mp h0)
    obtain ⟨m, hm, hval⟩ := List.mem_map.mp (foldl_max_zero_mem _ hmap)
    rw [List.any_eq_true]
    refine ⟨m, hm, ?_⟩
    simp only [add_member, beq_iff_eq]
    omega

/-- C8 (witness): member "Eve" joins household 1 of `exC34` (four members,
max joinOrder 4) and household 2 (empty). -/
theorem add_member_join_order_witness :
    ((exC34.members.filter (fun m => m.householdId == 1)).all
        (fun m => decide (m.joinOrder < (add_member exC34 1 "Eve" none).1.joinOrder))
      = true)
    ∧ (add_member exC34 2 "Eve" none).1.joinOrder = 1
    ∧ ((exC34.members.filter (fun m => m.householdId == 1)).any
        (fun m => (add_member exC34 1 "Eve" none).1.joinOrder == m.joinOrder + 1)
      = true) :=
  ⟨(add_member_join_order exC34 1 "Eve" none).1,
   (add_member_join_order exC34 2 "Eve" none).2.1 (by decide),
   (add_member_join_order exC34 1 "Eve" none).2.2 (by decide)⟩

/-- C9: when no week is supplied, both `rotate` and `get_current_assignments`
use `monday_of_week today`, and that date is the Monday of the current week:
its Python weekday is 0 (Monday) and it is the closest Monday at or before
`today`. -/
theorem default_week_is_current_monday :
    (∀ d : Int, pyWeekday (monday_of_week d) = 0 ∧ monday_of_week d ≤ d ∧
      d - monday_of_week d < 7)
    ∧ (∀ (st : Store) (hid : Nat) (aw : Option Int) (today : Int),
        rotate st hid none aw today
          = rotate st hid (some (monday_of_week today)) aw today)
    ∧ (∀ (st : Store) (hid : Nat) (today : Int),
        get_current_assignments st hid none today
          = get_current_assignments st hid (some (monday_of_week today)) today) := by
  refine ⟨?_, ?_, ?_⟩
  · intro d
    unfold monday_of_week pyWeekday
    omega
  · intro st hid aw today
    rfl
  · intro st hid today
    rfl

/-- C3: the fairness ranker returns the household's member ids sorted
ascending by the key (historical count, joinOrder, identity) — it coincides
with the spec-level `fairnessRankSpec` on every store — and on the spec's
worked example (counts [3,1,1,2], joinOrders [1,2,3,4]) it returns
[2, 3, 4, 1]. -/
theorem fairness_rank_ordering :
    (∀ (st : Store) (hid : Nat) (week : Int),
        pick_member_round_robin st hid week = fairnessRankSpec st hid week)
    ∧ pick_member_round_robin exC34 1 19884 = [2, 3, 4, 1] := by
  refine ⟨?_, by decide⟩
  intro st hid week
  unfold pick_member_round_robin fairnessRankSpec
  by_cases hF : st.members.filter (fun m => m.householdId == hid) = []
  · rw [hF]
    simp
  · rw [if_neg (fun hc => sorted_members_ne_nil st hid hF (List.isEmpty_iff.mp hc))]
    have hsorteq : List.insertionSort keyLe
        ((List.insertionSort memberOrdLe
          (st.members.filter (fun m => m.householdId == hid))).map
            (fun m => (histCount st hid week m.id, m.joinOrder, m.id)))
        = List.insertionSort keyLe
          ((st.members.filter (fun m => m.householdId == hid)).map
            (fun m => (histCount st hid week m.id, m.joinOrder, m.id))) :=
      List.eq_of_perm_of_sorted
        (((List.perm_insertionSort keyLe _).trans
          ((List.perm_insertionSort memberOrdLe _).map _)).trans
          (List.perm_insertionSort keyLe _).symm)
        (List.sorted_insertionSort keyLe _)
        (List.sorted_insertionSort keyLe _)
    dsimp only
    rw [hsorteq]
    rw [← List.map_insertionSort (memberKeyLe st hid week) keyLe
        (fun m => (histCount st hid week m.id, m.joinOrder, m.id))
        (st.members.filter (fun m => m.householdId == hid))
        (fun a _ b _ => Iff.rfl)]
    rw [List.map_map]
    rfl

/-- C10: the fairness ranker's output is a permutation of the household's
member ids — no member is dropped, duplicated or invented, whatever the
historical counts are. -/
theorem fair_order_is_permutation (st : Store) (hid : Nat) (week : Int) :
    (pick_member_round_robin st hid week).Perm
      ((st.members.filter (fun m => m.householdId == hid)).map (fun m => m.id)) := by
  unfold pick_member_round_robin
  by_cases hF : st.members.filter (fun m => m.householdId == hid) = []
  · rw [hF]
    simp
  · rw [if_neg (fun hc => sorted_members_ne_nil st hid hF (List.isEmpty_iff.mp hc))]
    refine ((List.perm_insertionSort keyLe _).map (fun x => x.2.2)).trans ?_
    rw [List.map_map]
    exact (List.perm_insertionSort memberOrdLe _).map (fun m => m.id)
